import Mathlib

/-!
Shallow embedding of the friend-request core of the Accuknox social-network
service (src/Accuknox/social_network/users/views.py, class
FriendRequestViewSet), together with proofs of the specified properties.

Users are identified by their numeric id; the database state carries the
list of existing user ids, the list of FriendRequest rows and the id the
next created row receives.  The Python views wrap their bodies in
try/except blocks; the embedding makes this explicit: each body returns
`Except Exc (Response × DB)` and a wrapper dispatches raised exceptions to
the handlers in source order.  Note that Django get_object_or_404 raises
Http404 (a direct subclass of Exception), which is not an instance of
User.DoesNotExist or FriendRequest.DoesNotExist, so in this code it is
caught by the trailing generic handler.
-/

namespace Accuknox

/-- Status values of a FriendRequest row: "pending", "accepted", "rejected". -/
inductive RStatus where
  | pending
  | accepted
  | rejected
deriving DecidableEq, Repr

/-- Modelled from the spec: users/models.py is not in the sources; per §3 a
FriendRequest has an identifier, fromUser, toUser and a status, and per
§4.2 a newly created row has status pending (see `getOrCreateFR`). -/
structure FriendRequest where
  id : Nat
  from_user : Nat
  to_user : Nat
  status : RStatus
deriving DecidableEq, Repr

/-- Database state: the existing user ids, the FriendRequest table, and the
primary key the next inserted row receives. -/
structure DB where
  users : List Nat
  requests : List FriendRequest
  nextId : Nat
deriving DecidableEq, Repr

/-- Exceptions that can be raised inside the view bodies.  `http404` is
raised by Django get_object_or_404; the two DoesNotExist constructors model
the exception classes named in the dead `except` clauses (never actually
raised by these bodies). -/
inductive Exc where
  | http404
  | userDoesNotExist
  | frDoesNotExist
deriving DecidableEq, Repr

/-- Responses returned by the view actions (payload text dropped, status
code and shape kept). -/
inductive Response where
  | created (fr : FriendRequest)
  | okStatus (s : RStatus)
  | badRequestDuplicate
  | notFound
  | tooManyRequests
  | internalError
deriving DecidableEq, Repr

/-- HTTP status code of a response. -/
def Response.code : Response → Nat
  | .created _ => 201
  | .okStatus _ => 200
  | .badRequestDuplicate => 400
  | .notFound => 404
  | .tooManyRequests => 429
  | .internalError => 500

/-- FriendRequest.objects.filter(from_user=u, status="pending").count() -/
def countPendingFrom (db : DB) (u : Nat) : Nat :=
  (db.requests.filter (fun r => r.from_user == u && r.status == RStatus.pending)).length

/-- get_object_or_404(User, id=to_user_id): raises Http404 when no user row
matches; a missing to_user_id (None) matches no row. -/
def resolveUser (db : DB) (toUserId : Option Nat) : Except Exc Nat :=
  match toUserId with
  | none => .error .http404
  | some uid => if db.users.contains uid then .ok uid else .error .http404

/-- get_object_or_404(FriendRequest, id=friend_request_id): raises Http404
when no row has the given id. -/
def resolveFR (db : DB) (reqId : Option Nat) : Except Exc Nat :=
  match reqId with
  | none => .error .http404
  | some rid =>
      if db.requests.any (fun r => r.id == rid) then .ok rid else .error .http404

/-- FriendRequest.objects.get_or_create(from_user=f, to_user=t): returns the
existing row and False when one matches the (from_user, to_user) pair, else
inserts a fresh row and returns it with True.  Modelled from the spec: the
status default "pending" of the new row comes from §4.2 step 4, since
users/models.py is not in the sources. -/
def getOrCreateFR (db : DB) (f t : Nat) : FriendRequest × Bool × DB :=
  match db.requests.find? (fun r => r.from_user == f && r.to_user == t) with
  | some r => (r, false, db)
  | none =>
      let fr : FriendRequest := ⟨db.nextId, f, t, RStatus.pending⟩
      (fr, true, { db with requests := db.requests ++ [fr], nextId := db.nextId + 1 })

/-- Body of the try block of FriendRequestViewSet.send_request. -/
def send_body (db : DB) (actor : Nat) (toUserId : Option Nat) :
    Except Exc (Response × DB) :=
  if 3 ≤ countPendingFrom db actor then
    .ok (.tooManyRequests, db)
  else
    match resolveUser db toUserId with
    | .error e => .error e
    | .ok toU =>
        match getOrCreateFR db actor toU with
        | (fr, created, db2) =>
            if created then .ok (.created fr, db2)
            else .ok (.badRequestDuplicate, db2)

/-- FriendRequestViewSet.send_request: the try body, then the handlers in
source order: `except User.DoesNotExist` returns 404 (dead: the body only
raises Http404), `except Exception` returns 500. -/
def send_request (db : DB) (actor : Nat) (toUserId : Option Nat) : Response × DB :=
  match send_body db actor toUserId with
  | .ok r => r
  | .error .userDoesNotExist => (.notFound, db)
  | .error _ => (.internalError, db)

/-- friend_request.status = s; friend_request.save(): updates the row whose
primary key is rid. -/
def setStatusById (db : DB) (rid : Nat) (s : RStatus) : DB :=
  { db with
    requests := db.requests.map (fun r => if r.id == rid then { r with status := s } else r) }

/-- Body of the try block of FriendRequestViewSet.accept_request: resolve
the row by id, set its status to accepted unconditionally. -/
def accept_body (db : DB) (reqId : Option Nat) : Except Exc (Response × DB) :=
  match resolveFR db reqId with
  | .error e => .error e
  | .ok rid => .ok (.okStatus RStatus.accepted, setStatusById db rid RStatus.accepted)

/-- FriendRequestViewSet.accept_request: the acting user is taken from the
request but never consulted by the body.  Handler order as in the source:
`except FriendRequest.DoesNotExist` returns 404 (dead), `except Exception`
returns 500. -/
def accept_request (db : DB) (_actor : Nat) (reqId : Option Nat) : Response × DB :=
  match accept_body db reqId with
  | .ok r => r
  | .error .frDoesNotExist => (.notFound, db)
  | .error _ => (.internalError, db)

/-- Body of the try block of FriendRequestViewSet.reject_request. -/
def reject_body (db : DB) (reqId : Option Nat) : Except Exc (Response × DB) :=
  match resolveFR db reqId with
  | .error e => .error e
  | .ok rid => .ok (.okStatus RStatus.rejected, setStatusById db rid RStatus.rejected)

/-- FriendRequestViewSet.reject_request, symmetric to accept_request. -/
def reject_request (db : DB) (_actor : Nat) (reqId : Option Nat) : Response × DB :=
  match reject_body db reqId with
  | .error .frDoesNotExist => (.notFound, db)
  | .error _ => (.internalError, db)
  | .ok r => r

/-- FriendRequestViewSet.list_friends: users U with an accepted request
U→me (sent_requests__to_user=me) or me→U (received_requests__from_user=me). -/
def list_friends (db : DB) (me : Nat) : List Nat :=
  db.users.filter (fun u =>
    db.requests.any (fun r =>
      r.from_user == u && r.to_user == me && r.status == RStatus.accepted)
    || db.requests.any (fun r =>
      r.from_user == me && r.to_user == u && r.status == RStatus.accepted))

/-- FriendRequestViewSet.list_pending_requests:
FriendRequest.objects.filter(to_user=me, status="pending"). -/
def list_pending_requests (db : DB) (me : Nat) : List FriendRequest :=
  db.requests.filter (fun r => r.to_user == me && r.status == RStatus.pending)

/-! Concrete example states used in witnesses. -/

/-- Example state: user 1 has three pending outgoing requests (to 2, 3, 4). -/
def dbA : DB :=
  ⟨[1, 2, 3, 4, 5],
   [⟨10, 1, 2, RStatus.pending⟩, ⟨11, 1, 3, RStatus.pending⟩, ⟨12, 1, 4, RStatus.pending⟩],
   13⟩

/-- Example state: a single pending request 1 → 2 with id 0. -/
def dbB : DB := ⟨[1, 2], [⟨0, 1, 2, RStatus.pending⟩], 1⟩

/-! Helper lemmas about the operations, shared by the claim proofs. -/

/-- A send under the rate limit to an existing recipient with no prior
record for the ordered pair creates a fresh pending row and returns 201. -/
theorem send_request_created (db : DB) (A B : Nat)
    (hrl : countPendingFrom db A < 3) (hB : db.users.contains B = true)
    (hno : ∀ r ∈ db.requests, ¬(r.from_user = A ∧ r.to_user = B)) :
    send_request db A (some B)
      = (.created ⟨db.nextId, A, B, RStatus.pending⟩,
         { db with requests := db.requests ++ [⟨db.nextId, A, B, RStatus.pending⟩],
                   nextId := db.nextId + 1 }) := by
  have hn : db.requests.find? (fun r => r.from_user == A && r.to_user == B) = none := by
    rw [List.find?_eq_none]
    intro x hx
    simp only [Bool.and_eq_true, beq_iff_eq, not_and]
    intro hfx htx
    exact hno x hx ⟨hfx, htx⟩
  have hBmem : B ∈ db.users := by simpa using hB
  simp [send_request, send_body, Nat.not_le.mpr hrl, resolveUser, hBmem, getOrCreateFR, hn]

/-- A send under the rate limit to an existing recipient with a prior
record for the ordered pair (any status) returns 400 and leaves the state
unchanged. -/
theorem send_request_duplicate (db : DB) (A B : Nat)
    (hrl : countPendingFrom db A < 3) (hB : db.users.contains B = true)
    (hex : ∃ r ∈ db.requests, r.from_user = A ∧ r.to_user = B) :
    send_request db A (some B) = (.badRequestDuplicate, db) := by
  obtain ⟨r, hr, hf, ht⟩ := hex
  have hp : (db.requests.find? (fun r => r.from_user == A && r.to_user == B)).isSome := by
    rw [List.find?_isSome]
    exact ⟨r, hr, by simp [hf, ht]⟩
  obtain ⟨r0, hr0⟩ := Option.isSome_iff_exists.mp hp
  have hBmem : B ∈ db.users := by simpa using hB
  simp [send_request, send_body, Nat.not_le.mpr hrl, resolveUser, hBmem, getOrCreateFR, hr0]

/-- Accepting an existing request id returns 200 accepted and updates the
matching row in place. -/
theorem accept_request_found (db : DB) (a rid : Nat)
    (h : db.requests.any (fun r => r.id == rid) = true) :
    accept_request db a (some rid)
      = (.okStatus RStatus.accepted, setStatusById db rid RStatus.accepted) := by
  simp [accept_request, accept_body, resolveFR, h]

/-- Rejecting an existing request id returns 200 rejected and updates the
matching row in place. -/
theorem reject_request_found (db : DB) (a rid : Nat)
    (h : db.requests.any (fun r => r.id == rid) = true) :
    reject_request db a (some rid)
      = (.okStatus RStatus.rejected, setStatusById db rid RStatus.rejected) := by
  simp [reject_request, reject_body, resolveFR, h]

/-- The state an accept leaves behind: the in-place update when the id
exists, the unchanged state otherwise. -/
theorem accept_request_state (db : DB) (a rid : Nat) :
    (accept_request db a (some rid)).2
      = if db.requests.any (fun r => r.id == rid) then setStatusById db rid RStatus.accepted
        else db := by
  by_cases h : db.requests.any (fun r => r.id == rid) = true
  · simp [accept_request, accept_body, resolveFR, h]
  · simp only [Bool.not_eq_true] at h
    simp [accept_request, accept_body, resolveFR, h]

/-- The state a reject leaves behind. -/
theorem reject_request_state (db : DB) (a rid : Nat) :
    (reject_request db a (some rid)).2
      = if db.requests.any (fun r => r.id == rid) then setStatusById db rid RStatus.rejected
        else db := by
  by_cases h : db.requests.any (fun r => r.id == rid) = true
  · simp [reject_request, reject_body, resolveFR, h]
  · simp only [Bool.not_eq_true] at h
    simp [reject_request, reject_body, resolveFR, h]

/-! Further helper lemmas about setStatusById and the list queries. -/

/-- Updating a row by id keeps the updated row in the table. -/
theorem mem_setStatusById (db : DB) (rid : Nat) (s : RStatus) (fr : FriendRequest)
    (hfr : fr ∈ db.requests) (hid : fr.id = rid) :
    { fr with status := s } ∈ (setStatusById db rid s).requests := by
  simp only [setStatusById, List.mem_map]
  exact ⟨fr, hfr, by simp [hid]⟩

/-- After an in-place update, every row carrying the updated id has the new
status. -/
theorem status_after_setStatusById (db : DB) (rid : Nat) (s : RStatus) :
    ∀ r ∈ (setStatusById db rid s).requests, r.id = rid → r.status = s := by
  intro r hr hidr
  simp only [setStatusById, List.mem_map] at hr
  obtain ⟨r0, hr0, hf⟩ := hr
  by_cases hc : r0.id = rid
  · rw [← hf]; simp [hc]
  · rw [← hf] at hidr
    simp [hc] at hidr

/-- setStatusById does not change which ids occur in the table. -/
theorem any_id_setStatusById (db : DB) (rid : Nat) (s : RStatus) (rid2 : Nat) :
    (setStatusById db rid s).requests.any (fun r => r.id == rid2)
      = db.requests.any (fun r => r.id == rid2) := by
  simp only [setStatusById]
  rw [List.any_map]
  congr 1
  funext r
  by_cases hc : r.id = rid <;> simp [Function.comp, hc]

/-- setStatusById does not change the endpoints of any row. -/
theorem from_to_after_setStatusById (db : DB) (rid : Nat) (s : RStatus) :
    ∀ r2 ∈ (setStatusById db rid s).requests,
      ∃ r ∈ db.requests, r2.from_user = r.from_user ∧ r2.to_user = r.to_user := by
  intro r2 h
  simp only [setStatusById, List.mem_map] at h
  obtain ⟨r, hr, hf⟩ := h
  refine ⟨r, hr, ?_, ?_⟩ <;> rw [← hf] <;> split <;> rfl

/-- Membership in the pending inbox unfolded. -/
theorem inbox_mem_iff (db : DB) (B : Nat) (fr : FriendRequest) :
    fr ∈ list_pending_requests db B
      ↔ fr ∈ db.requests ∧ fr.to_user = B ∧ fr.status = RStatus.pending := by
  simp [list_pending_requests, List.mem_filter, and_assoc]

/-- After setting a non-pending status on an id, no inbox entry carries that
id. -/
theorem inbox_no_id_after_set (db : DB) (B rid : Nat) (s : RStatus)
    (hs : (s == RStatus.pending) = false) :
    ∀ fr ∈ list_pending_requests (setStatusById db rid s) B, fr.id ≠ rid := by
  intro fr hfr hidr
  rw [inbox_mem_iff] at hfr
  obtain ⟨hmem, hto, hp⟩ := hfr
  have hst : fr.status = s := status_after_setStatusById db rid s fr hmem hidr
  rw [hp] at hst
  rw [← hst] at hs
  simp at hs

/-- When no row carries an id, no inbox entry carries it either. -/
theorem inbox_no_id_absent (db : DB) (B rid : Nat)
    (h : db.requests.any (fun r => r.id == rid) = false) :
    ∀ fr ∈ list_pending_requests db B, fr.id ≠ rid := by
  intro fr hfr hidr
  rw [inbox_mem_iff] at hfr
  have h2 := (List.any_eq_false.mp h) fr hfr.1
  simp [hidr] at h2

/-- Sufficient condition for appearing in the friend list: an accepted row
between the two users in either direction, with the candidate in the user
directory. -/
theorem mem_list_friends (db : DB) (me u : Nat) (hu : u ∈ db.users)
    (h : ∃ r ∈ db.requests, r.status = RStatus.accepted ∧
          ((r.from_user = u ∧ r.to_user = me) ∨ (r.from_user = me ∧ r.to_user = u))) :
    u ∈ list_friends db me := by
  obtain ⟨r, hr, hst, hdir⟩ := h
  simp only [list_friends, List.mem_filter]
  refine ⟨hu, ?_⟩
  rcases hdir with ⟨hf, ht⟩ | ⟨hf, ht⟩
  · have hX : db.requests.any (fun r =>
        r.from_user == u && r.to_user == me && r.status == RStatus.accepted) = true := by
      rw [List.any_eq_true]
      exact ⟨r, hr, by simp [hf, ht, hst]⟩
    simp [hX]
  · have hY : db.requests.any (fun r =>
        r.from_user == me && r.to_user == u && r.status == RStatus.accepted) = true := by
      rw [List.any_eq_true]
      exact ⟨r, hr, by simp [hf, ht, hst]⟩
    simp [hY]

/-- Filtering after mapping a function that can only turn matches into
non-matches never increases the match count. -/
theorem filter_length_map_le {α : Type} (p : α → Bool) (f : α → α)
    (h : ∀ x, p (f x) = true → p x = true) (l : List α) :
    (List.filter p (l.map f)).length ≤ (List.filter p l).length := by
  induction l with
  | nil => simp
  | cons x t ih =>
    simp only [List.map_cons, List.filter_cons]
    by_cases hx : p (f x) = true
    · simp only [hx, h x hx, if_true, List.length_cons]
      omega
    · rw [Bool.not_eq_true] at hx
      simp only [hx, Bool.false_eq_true, if_false]
      by_cases hx2 : p x = true
      · simp only [hx2, if_true, List.length_cons]
        omega
      · rw [Bool.not_eq_true] at hx2
        simp only [hx2, Bool.false_eq_true, if_false]
        omega

/-- The strict version of filter_length_map_le: when some list element
matches before the map but not after, the match count strictly drops. -/
theorem filter_length_map_lt {α : Type} (p : α → Bool) (f : α → α)
    (h : ∀ x, p (f x) = true → p x = true) (l : List α) (x : α)
    (hx : x ∈ l) (hpx : p x = true) (hpfx : p (f x) = false) :
    (List.filter p (l.map f)).length < (List.filter p l).length := by
  induction l with
  | nil => cases hx
  | cons y t ih =>
    simp only [List.map_cons, List.filter_cons]
    rcases List.mem_cons.mp hx with rfl | hmem
    · simp only [hpfx, Bool.false_eq_true, if_false, hpx, if_true, List.length_cons]
      have hle := filter_length_map_le p f h t
      omega
    · by_cases hy : p (f y) = true
      · simp only [hy, h y hy, if_true, List.length_cons]
        have := ih hmem
        omega
      · rw [Bool.not_eq_true] at hy
        simp only [hy, Bool.false_eq_true, if_false]
        by_cases hy2 : p y = true
        · simp only [hy2, if_true, List.length_cons]
          have := ih hmem
          omega
        · rw [Bool.not_eq_true] at hy2
          simp only [hy2, Bool.false_eq_true, if_false]
          exact ih hmem

/-- Setting a non-pending status on a pending outgoing row strictly lowers
the pending-outgoing count of its sender. -/
theorem countPendingFrom_setStatusById_lt (db : DB) (A rid : Nat) (s : RStatus)
    (hs : (s == RStatus.pending) = false) (fr : FriendRequest)
    (hfr : fr ∈ db.requests) (hid : fr.id = rid) (hfrom : fr.from_user = A)
    (hp : fr.status = RStatus.pending) :
    countPendingFrom (setStatusById db rid s) A < countPendingFrom db A := by
  simp only [countPendingFrom, setStatusById]
  refine filter_length_map_lt _ _ ?_ db.requests fr hfr ?_ ?_
  · intro r hr
    by_cases hc : r.id = rid
    · simp [hc, hs] at hr
    · simpa [hc] using hr
  · simp [hfrom, hp]
  · simp [hid, hs]

/-- A send to a fresh recipient right after one pending outgoing row of a
sender at the limit of 3 is retired to status s succeeds with 201. -/
theorem send_after_setStatus (db : DB) (A B rid : Nat) (s : RStatus)
    (hs : (s == RStatus.pending) = false) (fr : FriendRequest)
    (hfr : fr ∈ db.requests) (hid : fr.id = rid) (hfrom : fr.from_user = A)
    (hp : fr.status = RStatus.pending)
    (hcount : countPendingFrom db A = 3)
    (hB : db.users.contains B = true)
    (hfresh : ∀ r ∈ db.requests, ¬(r.from_user = A ∧ r.to_user = B)) :
    (send_request (setStatusById db rid s) A (some B)).1
      = .created ⟨db.nextId, A, B, RStatus.pending⟩ := by
  have hlt : countPendingFrom (setStatusById db rid s) A < 3 := by
    have := countPendingFrom_setStatusById_lt db A rid s hs fr hfr hid hfrom hp
    omega
  have hB2 : (setStatusById db rid s).users.contains B = true := hB
  have hno2 : ∀ r ∈ (setStatusById db rid s).requests,
      ¬(r.from_user = A ∧ r.to_user = B) := by
    intro r hr hc
    obtain ⟨r0, hr0, hf, ht⟩ := from_to_after_setStatusById db rid s r hr
    exact hfresh r0 hr0 ⟨by rw [← hf]; exact hc.1, by rw [← ht]; exact hc.2⟩
  rw [send_request_created (setStatusById db rid s) A B hlt hB2 hno2]
  rfl

/-! Claim theorems. -/

/-- Claim C1 counterexample: in state `dbA` a FriendRequest (1 → 2) already
exists, yet send(1, 2) does not fail with DuplicateRequest (400): user 1 is
at the pending-outgoing limit, so the rate-limit check fires first and the
call returns 429. -/
theorem C1_counterexample :
    (∃ r ∈ dbA.requests, r.from_user = 1 ∧ r.to_user = 2) ∧
    send_request dbA 1 (some 2) = (.tooManyRequests, dbA) ∧
    (send_request dbA 1 (some 2)).1 ≠ Response.badRequestDuplicate := by
  refine ⟨⟨⟨10, 1, 2, RStatus.pending⟩, by decide, rfl, rfl⟩, by decide, by decide⟩

/-- Claim C1 (amended): provided the sender is under the rate limit (fewer
than 3 pending outgoing requests) and the recipient exists, send(A, B) with
an existing (A, B) record in any status fails with DuplicateRequest (400)
and leaves the state unchanged, and with no existing (A, B) record it
returns a created pending record. -/
theorem C1_duplicate_guard (db : DB) (A B : Nat)
    (hrl : countPendingFrom db A < 3) (hB : db.users.contains B = true) :
    ((∃ r ∈ db.requests, r.from_user = A ∧ r.to_user = B) →
      send_request db A (some B) = (.badRequestDuplicate, db)) ∧
    ((∀ r ∈ db.requests, ¬(r.from_user = A ∧ r.to_user = B)) →
      send_request db A (some B)
        = (.created ⟨db.nextId, A, B, RStatus.pending⟩,
           { db with requests := db.requests ++ [⟨db.nextId, A, B, RStatus.pending⟩],
                     nextId := db.nextId + 1 })) :=
  ⟨fun hex => send_request_duplicate db A B hrl hB hex,
   fun hno => send_request_created db A B hrl hB hno⟩

/-- Witness for C1: in state `dbB` (one pending request 1 → 2, sender under
the limit) a second send(1, 2) returns DuplicateRequest and changes
nothing. -/
theorem C1_witness :
    send_request dbB 1 (some 2) = (.badRequestDuplicate, dbB) :=
  (C1_duplicate_guard dbB 1 2 (by decide) (by decide)).1
    ⟨⟨0, 1, 2, RStatus.pending⟩, by decide, rfl, rfl⟩

/-- Claim C2: a sender with 3 or more pending outgoing requests gets 429
RateLimitExceeded for every recipient argument, existing or not, since the
rate-limit check runs before the recipient is resolved. -/
theorem C2_rate_limit (db : DB) (A : Nat) (h : 3 ≤ countPendingFrom db A)
    (t : Option Nat) :
    send_request db A t = (.tooManyRequests, db) := by
  simp [send_request, send_body, h]

/-- Witness for C2: user 1 of `dbA` has 3 pending outgoing requests, and a
send to the nonexistent user id 99 still returns 429. -/
theorem C2_witness :
    3 ≤ countPendingFrom dbA 1 ∧
    send_request dbA 1 (some 99) = (.tooManyRequests, dbA) :=
  ⟨by decide, C2_rate_limit dbA 1 (by decide) (some 99)⟩

/-- Claim C5 (code bug): a send whose to_user_id matches no user, by a
sender under the rate limit, returns 500, not 404: the Http404 raised by
get_object_or_404 is caught by the generic `except Exception` handler, the
`except User.DoesNotExist` clause being dead code. -/
theorem C5_user_not_found_gives_500 :
    countPendingFrom dbB 1 < 3 ∧
    dbB.users.contains 99 = false ∧
    send_request dbB 1 (some 99) = (.internalError, dbB) ∧
    (send_request dbB 1 (some 99)).1.code = 500 := by
  refine ⟨by decide, by decide, by decide, by decide⟩

/-- Claim C6 (code bug): accept and reject with a request_id matching no
FriendRequest return 500, not 404: the Http404 raised by get_object_or_404
is caught by the generic `except Exception` handler, the
`except FriendRequest.DoesNotExist` clause being dead code. -/
theorem C6_request_not_found_gives_500 :
    dbB.requests.any (fun r => r.id == 99) = false ∧
    accept_request dbB 1 (some 99) = (.internalError, dbB) ∧
    reject_request dbB 1 (some 99) = (.internalError, dbB) ∧
    (accept_request dbB 1 (some 99)).1.code = 500 ∧
    (reject_request dbB 1 (some 99)).1.code = 500 := by
  refine ⟨by decide, by decide, by decide, by decide, by decide⟩

/-- Claim C9 counterexample: starting from a state with user 1 and no
requests, send(1, 1) succeeds with 201 and creates a record whose fromUser
equals its toUser, so the claimed invariant fromUser ≠ toUser is violated. -/
theorem C9_counterexample :
    send_request ⟨[1], [], 0⟩ 1 (some 1)
      = (.created ⟨0, 1, 1, RStatus.pending⟩,
         ⟨[1], [⟨0, 1, 1, RStatus.pending⟩], 1⟩) ∧
    ∃ r ∈ (send_request ⟨[1], [], 0⟩ 1 (some 1)).2.requests,
      r.from_user = r.to_user := by
  refine ⟨by decide, ⟨0, 1, 1, RStatus.pending⟩, by decide, rfl⟩

/-- Claim C9 (amended): the invariant fromUser ≠ toUser is not enforced:
for a sender A under the rate limit who exists in the directory and has no
prior (A, A) record, send(A, A) returns 201 and persists a self-request
with fromUser = toUser = A. -/
theorem C9_self_request_created (db : DB) (A : Nat)
    (hrl : countPendingFrom db A < 3) (hA : db.users.contains A = true)
    (hno : ∀ r ∈ db.requests, ¬(r.from_user = A ∧ r.to_user = A)) :
    (send_request db A (some A)).1 = .created ⟨db.nextId, A, A, RStatus.pending⟩ ∧
    ⟨db.nextId, A, A, RStatus.pending⟩ ∈ (send_request db A (some A)).2.requests := by
  rw [send_request_created db A A hrl hA hno]
  exact ⟨rfl, by simp⟩

/-- Witness for C9: user 1 alone in the directory sends to itself and the
self-request is created. -/
theorem C9_witness :
    (send_request ⟨[1], [], 5⟩ 1 (some 1)).1
      = .created ⟨5, 1, 1, RStatus.pending⟩ :=
  (C9_self_request_created ⟨[1], [], 5⟩ 1 (by decide) (by decide) (by decide)).1

/-- Claim C10: accept_request and reject_request never consult the acting
user: for any two actors, the same state and request id produce the same
response and the same final state. -/
theorem C10_actor_independent (db : DB) (a b : Nat) (rid : Option Nat) :
    accept_request db a rid = accept_request db b rid ∧
    reject_request db a rid = reject_request db b rid :=
  ⟨rfl, rfl⟩

/-- Claim C3: the pending inbox of user B contains a request iff that
request is in the table with toUser = B and status pending, and after an
accept or reject of a request id, no inbox entry of B carries that id. -/
theorem C3_inbox_correct (db : DB) (B a rid : Nat) :
    (∀ fr, fr ∈ list_pending_requests db B ↔
      fr ∈ db.requests ∧ fr.to_user = B ∧ fr.status = RStatus.pending) ∧
    (∀ fr ∈ list_pending_requests ((accept_request db a (some rid)).2) B, fr.id ≠ rid) ∧
    (∀ fr ∈ list_pending_requests ((reject_request db a (some rid)).2) B, fr.id ≠ rid) := by
  refine ⟨fun fr => inbox_mem_iff db B fr, ?_, ?_⟩
  · by_cases hany : db.requests.any (fun r => r.id == rid) = true
    · have hstate : (accept_request db a (some rid)).2
          = setStatusById db rid RStatus.accepted := by
        rw [accept_request_found db a rid hany]
      rw [hstate]
      exact inbox_no_id_after_set db B rid RStatus.accepted rfl
    · rw [Bool.not_eq_true] at hany
      have hstate : (accept_request db a (some rid)).2 = db := by
        rw [accept_request_state]
        simp [hany]
      rw [hstate]
      exact inbox_no_id_absent db B rid hany
  · by_cases hany : db.requests.any (fun r => r.id == rid) = true
    · have hstate : (reject_request db a (some rid)).2
          = setStatusById db rid RStatus.rejected := by
        rw [reject_request_found db a rid hany]
      rw [hstate]
      exact inbox_no_id_after_set db B rid RStatus.rejected rfl
    · rw [Bool.not_eq_true] at hany
      have hstate : (reject_request db a (some rid)).2 = db := by
        rw [reject_request_state]
        simp [hany]
      rw [hstate]
      exact inbox_no_id_absent db B rid hany

/-- Witness for C3: the pending request 1 → 2 of `dbB` is in the inbox of
user 2. -/
theorem C3_witness :
    (⟨0, 1, 2, RStatus.pending⟩ : FriendRequest) ∈ list_pending_requests dbB 2 :=
  ((C3_inbox_correct dbB 2 1 0).1 ⟨0, 1, 2, RStatus.pending⟩).mpr (by decide)

/-- Claim C4: after accepting the request fr = (A → B) with id rid, B is in
the friend list of A and A is in the friend list of B, provided both users
are in the directory. -/
theorem C4_friend_symmetry (db : DB) (a rid A B : Nat) (fr : FriendRequest)
    (hfr : fr ∈ db.requests) (hid : fr.id = rid)
    (hfrom : fr.from_user = A) (hto : fr.to_user = B)
    (hA : A ∈ db.users) (hB : B ∈ db.users) :
    B ∈ list_friends ((accept_request db a (some rid)).2) A ∧
    A ∈ list_friends ((accept_request db a (some rid)).2) B := by
  have hany : db.requests.any (fun r => r.id == rid) = true :=
    List.any_eq_true.mpr ⟨fr, hfr, by simp [hid]⟩
  have hstate : (accept_request db a (some rid)).2
      = setStatusById db rid RStatus.accepted := by
    rw [accept_request_found db a rid hany]
  rw [hstate]
  have hmem := mem_setStatusById db rid RStatus.accepted fr hfr hid
  constructor
  · exact mem_list_friends _ A B hB
      ⟨{ fr with status := RStatus.accepted }, hmem, rfl, Or.inr ⟨hfrom, hto⟩⟩
  · exact mem_list_friends _ B A hA
      ⟨{ fr with status := RStatus.accepted }, hmem, rfl, Or.inl ⟨hfrom, hto⟩⟩

/-- Witness for C4: accepting the request 1 → 2 of `dbB` makes 2 a friend
of 1 and 1 a friend of 2. -/
theorem C4_witness :
    2 ∈ list_friends ((accept_request dbB 1 (some 0)).2) 1 ∧
    1 ∈ list_friends ((accept_request dbB 1 (some 0)).2) 2 :=
  C4_friend_symmetry dbB 1 0 1 2 ⟨0, 1, 2, RStatus.pending⟩
    (by decide) rfl rfl rfl (by decide) (by decide)

/-- Claim C7: for an existing request id, accept returns 200 accepted and
reject returns 200 rejected with no check of the current status, each
setting the status of the row unconditionally, and running one after the
other leaves the last-applied status. -/
theorem C7_last_write_wins (db : DB) (a rid : Nat)
    (h : db.requests.any (fun r => r.id == rid) = true) :
    accept_request db a (some rid)
      = (.okStatus RStatus.accepted, setStatusById db rid RStatus.accepted) ∧
    reject_request db a (some rid)
      = (.okStatus RStatus.rejected, setStatusById db rid RStatus.rejected) ∧
    (∀ r ∈ ((accept_request db a (some rid)).2).requests,
        r.id = rid → r.status = RStatus.accepted) ∧
    (∀ r ∈ ((reject_request db a (some rid)).2).requests,
        r.id = rid → r.status = RStatus.rejected) ∧
    ((reject_request ((accept_request db a (some rid)).2) a (some rid)).1
        = .okStatus RStatus.rejected) ∧
    (∀ r ∈ ((reject_request ((accept_request db a (some rid)).2) a (some rid)).2).requests,
        r.id = rid → r.status = RStatus.rejected) ∧
    ((accept_request ((reject_request db a (some rid)).2) a (some rid)).1
        = .okStatus RStatus.accepted) ∧
    (∀ r ∈ ((accept_request ((reject_request db a (some rid)).2) a (some rid)).2).requests,
        r.id = rid → r.status = RStatus.accepted) := by
  have ha := accept_request_found db a rid h
  have hrj := reject_request_found db a rid h
  have hany1 : (setStatusById db rid RStatus.accepted).requests.any
      (fun r => r.id == rid) = true := by
    rw [any_id_setStatusById]
    exact h
  have hany2 : (setStatusById db rid RStatus.rejected).requests.any
      (fun r => r.id == rid) = true := by
    rw [any_id_setStatusById]
    exact h
  refine ⟨ha, hrj, ?_, ?_, ?_, ?_, ?_, ?_⟩
  · simp only [ha]
    exact status_after_setStatusById db rid RStatus.accepted
  · simp only [hrj]
    exact status_after_setStatusById db rid RStatus.rejected
  · simp only [ha, reject_request_found _ a rid hany1]
  · simp only [ha, reject_request_found _ a rid hany1]
    exact status_after_setStatusById _ rid RStatus.rejected
  · simp only [hrj, accept_request_found _ a rid hany2]
  · simp only [hrj, accept_request_found _ a rid hany2]
    exact status_after_setStatusById _ rid RStatus.accepted

/-- Witness for C7: accepting the pending request of `dbB` and then
rejecting it leaves status rejected on row 0; the responses are 200. -/
theorem C7_witness :
    accept_request dbB 1 (some 0)
      = (.okStatus RStatus.accepted, setStatusById dbB 0 RStatus.accepted) ∧
    (reject_request ((accept_request dbB 1 (some 0)).2) 1 (some 0)).1
      = .okStatus RStatus.rejected :=
  ⟨(C7_last_write_wins dbB 1 0 (by decide)).1,
   (C7_last_write_wins dbB 1 0 (by decide)).2.2.2.2.1⟩

/-- Claim C8: only pending rows count toward the rate limit: a sender at
the limit of exactly 3 pending outgoing requests can send to a fresh
existing recipient again, with a 201 created response, as soon as one of
those pending rows is accepted or rejected. -/
theorem C8_limit_frees_up (db : DB) (a A B rid : Nat) (fr : FriendRequest)
    (hfr : fr ∈ db.requests) (hid : fr.id = rid)
    (hfrom : fr.from_user = A) (hp : fr.status = RStatus.pending)
    (hcount : countPendingFrom db A = 3)
    (hB : db.users.contains B = true)
    (hfresh : ∀ r ∈ db.requests, ¬(r.from_user = A ∧ r.to_user = B)) :
    (send_request ((accept_request db a (some rid)).2) A (some B)).1
        = .created ⟨db.nextId, A, B, RStatus.pending⟩ ∧
    (send_request ((reject_request db a (some rid)).2) A (some B)).1
        = .created ⟨db.nextId, A, B, RStatus.pending⟩ := by
  have hany : db.requests.any (fun r => r.id == rid) = true :=
    List.any_eq_true.mpr ⟨fr, hfr, by simp [hid]⟩
  constructor
  · have hstate : (accept_request db a (some rid)).2
        = setStatusById db rid RStatus.accepted := by
      rw [accept_request_found db a rid hany]
    rw [hstate]
    exact send_after_setStatus db A B rid RStatus.accepted rfl fr
      hfr hid hfrom hp hcount hB hfresh
  · have hstate : (reject_request db a (some rid)).2
        = setStatusById db rid RStatus.rejected := by
      rw [reject_request_found db a rid hany]
    rw [hstate]
    exact send_after_setStatus db A B rid RStatus.rejected rfl fr
      hfr hid hfrom hp hcount hB hfresh

/-- Witness for C8: user 1 of `dbA` is at the limit of 3 pending outgoing
requests; after accepting the request with id 10, a send to the fresh
recipient 5 returns 201. -/
theorem C8_witness :
    (send_request ((accept_request dbA 1 (some 10)).2) 1 (some 5)).1
      = .created ⟨13, 1, 5, RStatus.pending⟩ :=
  (C8_limit_frees_up dbA 1 1 5 10 ⟨10, 1, 2, RStatus.pending⟩
    (by decide) rfl rfl rfl (by decide) (by decide) (by decide)).1

end Accuknox
